import Mathlib

/-!
Verification of the RDP probing module (`pkg/js/libs/rdp/rdp.go`).

The module exposes two probes, `IsRDP` and `CheckRDPAuth`.  Each resolves a
run-scoped dialer by execution id, opens one TCP connection to `host:port`,
hands the connection to an external protocol decoder with a fixed 5 second
timeout, and shapes the decoder's answer into a response struct.  The public
entry points read the execution id out of an untyped context with an
unchecked type assertion and go through generated memoization wrappers.

The embedding below is parameterized by an environment `RdpEnv` supplying
the external collaborators (dialer registry, fastdialer, protocol decoder).
Each probe returns the Go `(response, error)` pair together with a trace of
observable events (dial attempts with the deadline actually passed, decoder
invocations with the timeout actually passed, connection closes), so that
resource and call-count properties can be stated.
-/

namespace Rdp

/-- Response of the presence probe: mirrors Go struct `IsRDPResponse`
with fields `IsRDP bool` and `OS string`. -/
structure IsRDPResponse where
  IsRDP : Bool
  OS : String
  deriving Repr, DecidableEq

/-- External record `plugins.ServiceRDP` (out-of-scope collaborator from
fingerprintx); modelled opaquely by one representative metadata field.  The
core only moves it around or drops it, so its internal shape is irrelevant. -/
structure ServiceRDP where
  cookie : String
  deriving Repr, DecidableEq

/-- Response of the auth probe: mirrors Go struct `CheckRDPAuthResponse`
with fields `PluginInfo *plugins.ServiceRDP` (a nil-able pointer, hence
`Option`) and `Auth bool`. -/
structure CheckRDPAuthResponse where
  PluginInfo : Option ServiceRDP
  Auth : Bool
  deriving Repr, DecidableEq

/-- Observable events of one probe execution.  `dialAttempt` records the
network, address and the deadline carried by the context passed to
`Fastdialer.Dial` (the Go code passes `context.TODO()`, i.e. no deadline).
`detectRDPCall` / `detectRDPAuthCall` record the connection and the timeout
handed to the external decoder.  `closeConn` records a `conn.Close()`. -/
inductive Event
  | dialAttempt (network : String) (address : String) (deadline : Option Nat)
  | detectRDPCall (conn : Nat) (timeout : Nat)
  | detectRDPAuthCall (conn : Nat) (timeout : Nat)
  | closeConn (conn : Nat)
  deriving Repr, DecidableEq

/-- The fastdialer capability: `Dial (ctx deadline) network address` yields a
connection (identified by a number) or a dial error. -/
structure Fastdialer where
  Dial : Option Nat → String → String → Except String Nat

/-- Mirror of `protocolstate.Dialers`: the per-run dial resource, of which the
probes use the `Fastdialer` field. -/
structure Dialers where
  Fastdialer : Fastdialer

/-- Environment of external collaborators consumed by the core:
`protocolstate.GetDialersWithId`, `rdp.DetectRDP` and `rdp.DetectRDPAuth`.
`DetectRDP conn timeout` yields `(server, isRDP)` or an error;
`DetectRDPAuth conn timeout` yields `(pluginInfo, auth)` or an error, with a
nil-able pluginInfo. -/
structure RdpEnv where
  getDialersWithId : String → Option Dialers
  detectRDP : Nat → Nat → Except String (String × Bool)
  detectRDPAuth : Nat → Nat → Except String (Option ServiceRDP × Bool)

/-- Embedding of `isRDP` (rdp.go lines 44-71).  Returns the Go pair
`(IsRDPResponse, error)` (`Option String` models the nil-able `error`)
together with the event trace.  The dial is issued with `context.TODO()`,
i.e. deadline `none`; the constant `5` (seconds) is the `timeout` variable,
which is passed to `rdp.DetectRDP` only.  The deferred `conn.Close()` fires
on every return path after a successful dial. -/
def isRDP (env : RdpEnv) (executionId host : String) (port : Int) :
    (IsRDPResponse × Option String) × List Event :=
  match env.getDialersWithId executionId with
  | none => ((⟨false, ""⟩, some ("dialers not initialized for " ++ executionId)), [])
  | some dialer =>
    match dialer.Fastdialer.Dial none "tcp" (host ++ ":" ++ toString port) with
    | .error e =>
        ((⟨false, ""⟩, some e),
         [.dialAttempt "tcp" (host ++ ":" ++ toString port) none])
    | .ok conn =>
      match env.detectRDP conn 5 with
      | .error e =>
          ((⟨false, ""⟩, some e),
           [.dialAttempt "tcp" (host ++ ":" ++ toString port) none,
            .detectRDPCall conn 5, .closeConn conn])
      | .ok (server, isrdp) =>
        if isrdp then
          ((⟨true, server⟩, none),
           [.dialAttempt "tcp" (host ++ ":" ++ toString port) none,
            .detectRDPCall conn 5, .closeConn conn])
        else
          ((⟨false, ""⟩, none),
           [.dialAttempt "tcp" (host ++ ":" ++ toString port) none,
            .detectRDPCall conn 5, .closeConn conn])

/-- Embedding of `checkRDPAuth` (rdp.go lines 103-129), structurally
identical to `isRDP` but invoking `rdp.DetectRDPAuth`. -/
def checkRDPAuth (env : RdpEnv) (executionId host : String) (port : Int) :
    (CheckRDPAuthResponse × Option String) × List Event :=
  match env.getDialersWithId executionId with
  | none => ((⟨none, false⟩, some ("dialers not initialized for " ++ executionId)), [])
  | some dialer =>
    match dialer.Fastdialer.Dial none "tcp" (host ++ ":" ++ toString port) with
    | .error e =>
        ((⟨none, false⟩, some e),
         [.dialAttempt "tcp" (host ++ ":" ++ toString port) none])
    | .ok conn =>
      match env.detectRDPAuth conn 5 with
      | .error e =>
          ((⟨none, false⟩, some e),
           [.dialAttempt "tcp" (host ++ ":" ++ toString port) none,
            .detectRDPAuthCall conn 5, .closeConn conn])
      | .ok (pluginInfo, auth) =>
        if auth then
          ((⟨pluginInfo, true⟩, none),
           [.dialAttempt "tcp" (host ++ ":" ++ toString port) none,
            .detectRDPAuthCall conn 5, .closeConn conn])
        else
          ((⟨none, false⟩, none),
           [.dialAttempt "tcp" (host ++ ":" ++ toString port) none,
            .detectRDPAuthCall conn 5, .closeConn conn])

/-- Number of dial attempts recorded in a trace. -/
def countDials (tr : List Event) : Nat :=
  tr.countP fun e => match e with
    | .dialAttempt _ _ _ => true
    | _ => false

/-- Number of decoder invocations (of either kind) recorded in a trace. -/
def countDecodes (tr : List Event) : Nat :=
  tr.countP fun e => match e with
    | .detectRDPCall _ _ => true
    | .detectRDPAuthCall _ _ => true
    | _ => false

/-- Number of `Close()` calls on connection `c` recorded in a trace. -/
def countCloses (tr : List Event) (c : Nat) : Nat :=
  tr.countP fun e => match e with
    | .closeConn c2 => c2 == c
    | _ => false

/-- Cache key of a memoized probe: (executionId, host, port).  The probe kind
is implicit in the per-function cache (each generated wrapper owns its own
cache). -/
abbrev ProbeKey := String × String × Int

/-- A per-run memo cache mapping probe keys to stored outcomes. -/
abbrev Cache (α : Type) := ProbeKey → Option α

/-- Modelled from the spec: the generated wrapper `memoizedisRDP` (produced
by the `@memo` annotation on `isRDP`; the generated file is not part of the
sources here).  Per the spec, the memoized executor computes the underlying
probe at most once per key, caches the outcome — failure exactly like
success — and returns the cached outcome to later callers without
re-probing.  Sequential view: the call takes and returns the cache; a cache
hit performs no events. -/
def memoizedisRDP (env : RdpEnv) (cache : Cache (IsRDPResponse × Option String))
    (executionId host : String) (port : Int) :
    (IsRDPResponse × Option String) × Cache (IsRDPResponse × Option String) × List Event :=
  match cache (executionId, host, port) with
  | some outcome => (outcome, cache, [])
  | none =>
      let r := isRDP env executionId host port
      (r.1, Function.update cache (executionId, host, port) (some r.1), r.2)

/-- Modelled from the spec: the generated wrapper `memoizedcheckRDPAuth`
(produced by the `@memo` annotation on `checkRDPAuth`; the generated file is
not part of the sources here).  Same memoization discipline as
`memoizedisRDP`. -/
def memoizedcheckRDPAuth (env : RdpEnv)
    (cache : Cache (CheckRDPAuthResponse × Option String))
    (executionId host : String) (port : Int) :
    (CheckRDPAuthResponse × Option String) ×
      Cache (CheckRDPAuthResponse × Option String) × List Event :=
  match cache (executionId, host, port) with
  | some outcome => (outcome, cache, [])
  | none =>
      let r := checkRDPAuth env executionId host port
      (r.1, Function.update cache (executionId, host, port) (some r.1), r.2)

/-- A value stored in a Go `context.Context`: either a string or something
of another dynamic type. -/
inductive GoValue
  | str (s : String)
  | other
  deriving Repr, DecidableEq

/-- A Go `context.Context`, restricted to what the entry points use:
`Value key` returns the stored value or nil (`none`). -/
structure Context where
  value : String → Option GoValue

/-- The unchecked type assertion `v.(string)`: yields the string when the
dynamic value is a string, and panics otherwise (also when the value is nil).
The panic is modelled as `none`. -/
def typeAssertString : Option GoValue → Option String
  | some (.str s) => some s
  | _ => none

/-- Embedding of the exported `IsRDP` (rdp.go lines 38-41): reads
`executionId` from the context with an unchecked type assertion — a missing
or non-string value panics, modelled as `none` — then delegates to
`memoizedisRDP`. -/
def IsRDP (env : RdpEnv) (cache : Cache (IsRDPResponse × Option String))
    (ctx : Context) (host : String) (port : Int) :
    Option ((IsRDPResponse × Option String) ×
      Cache (IsRDPResponse × Option String) × List Event) :=
  match typeAssertString (ctx.value "executionId") with
  | none => none
  | some executionId => some (memoizedisRDP env cache executionId host port)

/-- Embedding of the exported `CheckRDPAuth` (rdp.go lines 97-100),
analogous to `IsRDP`. -/
def CheckRDPAuth (env : RdpEnv) (cache : Cache (CheckRDPAuthResponse × Option String))
    (ctx : Context) (host : String) (port : Int) :
    Option ((CheckRDPAuthResponse × Option String) ×
      Cache (CheckRDPAuthResponse × Option String) × List Event) :=
  match typeAssertString (ctx.value "executionId") with
  | none => none
  | some executionId => some (memoizedcheckRDPAuth env cache executionId host port)

/-! ## Single-flight memo executor under concurrency

Modelled from the spec: the memoized executor's concurrency discipline (the
generated wrapper and its synchronization are not part of the sources here).
The spec requires an atomic claim-and-publish pattern per key: concurrent
first-time callers for one `ProbeKey` collapse into exactly one computation,
all callers for a key observe the identical outcome, and callers on distinct
keys never block one another.  We model this as an interleaving transition
system: each caller is identified by an index with a fixed key; a key is
`notStarted`, `inFlight`, or `done`.  A caller atomically claims a
`notStarted` key (the decoder invocation belongs to this claiming caller),
later publishes the computed outcome, and a caller that finds the key `done`
returns the published outcome without computing. -/

/-- Probe kind distinguishing the two pipelines sharing the executor. -/
inductive ProbeKind
  | presence
  | authCheck
  deriving Repr, DecidableEq

/-- Full cache key of the spec's memo executor: run id, host, port, kind. -/
abbrev SFKey := String × String × Int × ProbeKind

/-- Per-key cache cell state: untouched, claimed by an in-flight
computation, or holding a published outcome. -/
inductive KeyState (α : Type)
  | notStarted
  | inFlight
  | done (o : α)
  deriving DecidableEq

/-- Local state of one caller: not yet arrived, computing the outcome for
its key, or returned with an outcome. -/
inductive CallerPC (α : Type)
  | start
  | computing
  | returned (o : α)
  deriving DecidableEq

/-- Global state of the single-flight executor: the cache table and each
caller's program counter.  Caller `i` probes the fixed key `keyOf i`. -/
structure SFState (α : Type) where
  table : SFKey → KeyState α
  callers : Nat → CallerPC α

/-- Transition labels, naming the acting caller. -/
inductive SFLabel
  | claim (i : Nat)
  | publish (i : Nat)
  | readDone (i : Nat)
  deriving Repr, DecidableEq

/-- The caller performing a labelled transition. -/
def SFLabel.actor : SFLabel → Nat
  | .claim i => i
  | .publish i => i
  | .readDone i => i

/-- Update the table at one key. -/
def setTable {α : Type} (s : SFState α) (k : SFKey) (v : KeyState α) : SFState α :=
  { s with table := Function.update s.table k v }

/-- Update one caller's program counter. -/
def setCaller {α : Type} (s : SFState α) (i : Nat) (p : CallerPC α) : SFState α :=
  { s with callers := Function.update s.callers i p }

/-- One interleaved step of the single-flight executor.  `f k` is the
outcome the underlying probe computes for key `k` (the decoder stub).
`claim` atomically moves a `notStarted` key to `inFlight` — this is the
moment the one decoder invocation for the key is issued; `publish` stores
the computed outcome and returns it to the computing caller; `readDone`
lets a caller return an already published outcome without computing. -/
inductive SFStep (f : SFKey → α) (keyOf : Nat → SFKey) :
    SFState α → SFLabel → SFState α → Prop
  | claim (s : SFState α) (i : Nat)
      (hc : s.callers i = .start) (ht : s.table (keyOf i) = .notStarted) :
      SFStep f keyOf s (.claim i)
        (setCaller (setTable s (keyOf i) .inFlight) i .computing)
  | publish (s : SFState α) (i : Nat)
      (hc : s.callers i = .computing) :
      SFStep f keyOf s (.publish i)
        (setCaller (setTable s (keyOf i) (.done (f (keyOf i)))) i
          (.returned (f (keyOf i))))
  | readDone (s : SFState α) (i : Nat) (o : α)
      (hc : s.callers i = .start) (ht : s.table (keyOf i) = .done o) :
      SFStep f keyOf s (.readDone i) (setCaller s i (.returned o))

/-- A finite interleaved execution with its trace of labels. -/
inductive SFExec (f : SFKey → α) (keyOf : Nat → SFKey) :
    SFState α → List SFLabel → SFState α → Prop
  | nil (s : SFState α) : SFExec f keyOf s [] s
  | cons (s s2 t : SFState α) (l : SFLabel) (ls : List SFLabel)
      (hstep : SFStep f keyOf s l s2) (hrest : SFExec f keyOf s2 ls t) :
      SFExec f keyOf s (l :: ls) t

/-- Initial state: no key computed, every caller at start. -/
def SFInit (α : Type) : SFState α :=
  { table := fun _ => .notStarted, callers := fun _ => .start }

/-- Decoder invocations a single label contributes for key `k`: a `claim`
by a caller on `k` is the issuing of the one probe for `k`. -/
def stepClaims (keyOf : Nat → SFKey) (l : SFLabel) (k : SFKey) : Nat :=
  match l with
  | .claim i => if keyOf i = k then 1 else 0
  | _ => 0

/-- Decoder invocations for key `k` in a trace. -/
def claimCount (keyOf : Nat → SFKey) (ls : List SFLabel) (k : SFKey) : Nat :=
  match ls with
  | [] => 0
  | l :: rest => stepClaims keyOf l k + claimCount keyOf rest k

/-- Inductive invariant of the single-flight executor, relative to the
number `c k` of claims already performed for each key `k`. -/
def SFInv (f : SFKey → α) (keyOf : Nat → SFKey) (c : SFKey → Nat)
    (s : SFState α) : Prop :=
  (∀ k, (s.table k = .notStarted ∧ c k = 0) ∨ (s.table k ≠ .notStarted ∧ c k = 1)) ∧
  (∀ k o, s.table k = .done o → o = f k) ∧
  (∀ i, s.callers i = .computing → s.table (keyOf i) ≠ .notStarted) ∧
  (∀ i o, s.callers i = .returned o →
    o = f (keyOf i) ∧ s.table (keyOf i) ≠ .notStarted)

/-! ## Concrete instances used to exercise the theorems -/

/-- A dialer whose every dial succeeds with connection 0. -/
def okDialers : Dialers := ⟨⟨fun _ _ _ => .ok 0⟩⟩

/-- Environment: dialer registered, dial succeeds, both decoders answer
negatively but with non-trivial metadata (which the probes must discard). -/
def envNeg : RdpEnv :=
  { getDialersWithId := fun _ => some okDialers
    detectRDP := fun _ _ => .ok ("Windows Server 2019", false)
    detectRDPAuth := fun _ _ => .ok (some ⟨"MSTSHASH=abc"⟩, false) }

/-- Environment: dialer registered, dial succeeds, both decoders answer
positively. -/
def envPos : RdpEnv :=
  { getDialersWithId := fun _ => some okDialers
    detectRDP := fun _ _ => .ok ("Windows Server 2019", true)
    detectRDPAuth := fun _ _ => .ok (some ⟨"MSTSHASH=abc"⟩, true) }

/-- Environment with an empty dialer registry. -/
def envNoDialers : RdpEnv :=
  { getDialersWithId := fun _ => none
    detectRDP := fun _ _ => .ok ("", false)
    detectRDPAuth := fun _ _ => .ok (none, false) }

/-- Environment whose dialer always fails to connect. -/
def envDialFail : RdpEnv :=
  { getDialersWithId := fun _ => some ⟨⟨fun _ _ _ => .error "connection refused"⟩⟩
    detectRDP := fun _ _ => .ok ("", false)
    detectRDPAuth := fun _ _ => .ok (none, false) }

/-- Environment where the dial succeeds but both decoders fail. -/
def envDecodeFail : RdpEnv :=
  { getDialersWithId := fun _ => some okDialers
    detectRDP := fun _ _ => .error "rdp decode failed"
    detectRDPAuth := fun _ _ => .error "rdp auth decode failed" }

/-- An empty memo cache for the presence probe. -/
def emptyCacheP : Cache (IsRDPResponse × Option String) := fun _ => none

/-- An empty memo cache for the auth probe. -/
def emptyCacheA : Cache (CheckRDPAuthResponse × Option String) := fun _ => none

/-- A context carrying no values at all. -/
def ctxEmpty : Context := ⟨fun _ => none⟩

/-- A context carrying a non-string value under `executionId`. -/
def ctxNonString : Context :=
  ⟨fun key => if key = "executionId" then some .other else none⟩

/-- A context carrying the string `run1` under `executionId`. -/
def ctxRun1 : Context :=
  ⟨fun key => if key = "executionId" then some (.str "run1") else none⟩

/-- Decoder stub outcome for the single-flight scenario. -/
def sfOutcome : SFKey → Nat := fun _ => 7

/-- The one key probed in the single-flight scenario. -/
def sfK : SFKey := ("run1", "acme.test", 3389, .presence)

/-- Key assignment: every caller probes `sfK`. -/
def sfKeyOf : Nat → SFKey := fun _ => sfK

/-- Trace of the single-flight scenario: caller 0 claims and publishes,
caller 1 reads the published outcome. -/
def sfTrace : List SFLabel := [.claim 0, .publish 0, .readDone 1]

/-- State after caller 0 claims `sfK`. -/
def sfS1 : SFState Nat := setCaller (setTable (SFInit Nat) sfK .inFlight) 0 .computing

/-- State after caller 0 publishes the outcome 7. -/
def sfS2 : SFState Nat := setCaller (setTable sfS1 sfK (.done 7)) 0 (.returned 7)

/-- State after caller 1 reads the published outcome. -/
def sfS3 : SFState Nat := setCaller sfS2 1 (.returned 7)

/-! ## Theorems -/

/-- Updating the table changes exactly the given entry. -/
theorem setTable_table {α : Type} (s : SFState α) (k k2 : SFKey) (v : KeyState α) :
    (setTable s k v).table k2 = if k2 = k then v else s.table k2 := by
  by_cases h : k2 = k
  · subst h; simp [setTable]
  · simp [setTable, Function.update_noteq h, h]

/-- Updating the table leaves the callers untouched. -/
theorem setTable_callers {α : Type} (s : SFState α) (k : SFKey) (v : KeyState α)
    (i : Nat) : (setTable s k v).callers i = s.callers i := rfl

/-- Updating a caller changes exactly that caller. -/
theorem setCaller_callers {α : Type} (s : SFState α) (i j : Nat) (p : CallerPC α) :
    (setCaller s i p).callers j = if j = i then p else s.callers j := by
  by_cases h : j = i
  · subst h; simp [setCaller]
  · simp [setCaller, Function.update_noteq h, h]

/-- Updating a caller leaves the table untouched. -/
theorem setCaller_table {α : Type} (s : SFState α) (i : Nat) (p : CallerPC α)
    (k : SFKey) : (setCaller s i p).table k = s.table k := rfl

/-- A claim step contributes one claim at the claiming caller's own key. -/
theorem stepClaims_claim_self (keyOf : Nat → SFKey) (i : Nat) :
    stepClaims keyOf (SFLabel.claim i) (keyOf i) = 1 := by
  simp [stepClaims]

/-- A claim step contributes no claim at any other key. -/
theorem stepClaims_claim_other {keyOf : Nat → SFKey} {i : Nat} {k : SFKey}
    (h : k ≠ keyOf i) : stepClaims keyOf (SFLabel.claim i) k = 0 := by
  simp only [stepClaims]
  rw [if_neg (fun h2 => h h2.symm)]

/-- A publish contributes no claim. -/
theorem stepClaims_publish (keyOf : Nat → SFKey) (i : Nat) (k : SFKey) :
    stepClaims keyOf (SFLabel.publish i) k = 0 := rfl

/-- A read of a published outcome contributes no claim. -/
theorem stepClaims_readDone (keyOf : Nat → SFKey) (i : Nat) (k : SFKey) :
    stepClaims keyOf (SFLabel.readDone i) k = 0 := rfl

/-- One step of the single-flight executor preserves the invariant, with the
claim count advanced by the step's own contribution. -/
theorem sfstep_inv {α : Type} {f : SFKey → α} {keyOf : Nat → SFKey} {c : SFKey → Nat}
    {s s2 : SFState α} {l : SFLabel}
    (hstep : SFStep f keyOf s l s2) (hinv : SFInv f keyOf c s) :
    SFInv f keyOf (fun k => c k + stepClaims keyOf l k) s2 := by
  obtain ⟨h1, h2, h3, h4⟩ := hinv
  cases hstep with
  | claim i hc ht =>
    refine ⟨fun k => ?_, fun k o hk => ?_, fun j hj => ?_, fun j o hj => ?_⟩
    · by_cases hk : k = keyOf i
      · subst hk
        right
        refine ⟨?_, ?_⟩
        · rw [setCaller_table, setTable_table, if_pos rfl]
          exact fun hcontra => KeyState.noConfusion hcontra
        · show c (keyOf i) + stepClaims keyOf (SFLabel.claim i) (keyOf i) = 1
          rcases h1 (keyOf i) with ⟨_, hc0⟩ | ⟨hne, _⟩
          · rw [hc0, stepClaims_claim_self]
          · exact absurd ht hne
      · rw [setCaller_table, setTable_table, if_neg hk]
        have hz := stepClaims_claim_other hk
        rcases h1 k with ⟨hns, hc0⟩ | ⟨hne, hc1⟩
        · refine Or.inl ⟨hns, ?_⟩
          show c k + stepClaims keyOf (SFLabel.claim i) k = 0
          rw [hz, hc0]
        · refine Or.inr ⟨hne, ?_⟩
          show c k + stepClaims keyOf (SFLabel.claim i) k = 1
          rw [hz, hc1]
    · by_cases hk2 : k = keyOf i
      · subst hk2
        rw [setCaller_table, setTable_table, if_pos rfl] at hk
        exact KeyState.noConfusion hk
      · rw [setCaller_table, setTable_table, if_neg hk2] at hk
        exact h2 k o hk
    · rw [setCaller_table, setTable_table]
      by_cases hk3 : keyOf j = keyOf i
      · rw [if_pos hk3]
        exact fun hcontra => KeyState.noConfusion hcontra
      · rw [if_neg hk3]
        by_cases hj2 : j = i
        · subst hj2
          exact absurd rfl hk3
        · rw [setCaller_callers, if_neg hj2, setTable_callers] at hj
          exact h3 j hj
    · by_cases hj2 : j = i
      · subst hj2
        rw [setCaller_callers, if_pos rfl] at hj
        exact CallerPC.noConfusion hj
      · rw [setCaller_callers, if_neg hj2, setTable_callers] at hj
        obtain ⟨ho, hne⟩ := h4 j o hj
        refine ⟨ho, ?_⟩
        rw [setCaller_table, setTable_table]
        by_cases hk3 : keyOf j = keyOf i
        · rw [if_pos hk3]
          exact fun hcontra => KeyState.noConfusion hcontra
        · rw [if_neg hk3]
          exact hne
  | publish i hc =>
    have hne0 : s.table (keyOf i) ≠ .notStarted := h3 i hc
    have hcc1 : c (keyOf i) = 1 := by
      rcases h1 (keyOf i) with ⟨hns, _⟩ | ⟨_, hcc⟩
      · exact absurd hns hne0
      · exact hcc
    refine ⟨fun k => ?_, fun k o hk => ?_, fun j hj => ?_, fun j o hj => ?_⟩
    · by_cases hk : k = keyOf i
      · subst hk
        right
        refine ⟨?_, ?_⟩
        · rw [setCaller_table, setTable_table, if_pos rfl]
          exact fun hcontra => KeyState.noConfusion hcontra
        · show c (keyOf i) + stepClaims keyOf (SFLabel.publish i) (keyOf i) = 1
          rw [stepClaims_publish, hcc1]
      · rw [setCaller_table, setTable_table, if_neg hk]
        rcases h1 k with ⟨hns, hc0⟩ | ⟨hne, hcc⟩
        · refine Or.inl ⟨hns, ?_⟩
          show c k + stepClaims keyOf (SFLabel.publish i) k = 0
          rw [stepClaims_publish, hc0]
        · refine Or.inr ⟨hne, ?_⟩
          show c k + stepClaims keyOf (SFLabel.publish i) k = 1
          rw [stepClaims_publish, hcc]
    · by_cases hk2 : k = keyOf i
      · subst hk2
        rw [setCaller_table, setTable_table, if_pos rfl] at hk
        injection hk with hinj
        exact hinj.symm
      · rw [setCaller_table, setTable_table, if_neg hk2] at hk
        exact h2 k o hk
    · by_cases hj2 : j = i
      · subst hj2
        rw [setCaller_callers, if_pos rfl] at hj
        exact CallerPC.noConfusion hj
      · rw [setCaller_callers, if_neg hj2, setTable_callers] at hj
        rw [setCaller_table, setTable_table]
        by_cases hk3 : keyOf j = keyOf i
        · rw [if_pos hk3]
          exact fun hcontra => KeyState.noConfusion hcontra
        · rw [if_neg hk3]
          exact h3 j hj
    · by_cases hj2 : j = i
      · subst hj2
        rw [setCaller_callers, if_pos rfl] at hj
        injection hj with hinj
        refine ⟨hinj.symm, ?_⟩
        rw [setCaller_table, setTable_table, if_pos rfl]
        exact fun hcontra => KeyState.noConfusion hcontra
      · rw [setCaller_callers, if_neg hj2, setTable_callers] at hj
        obtain ⟨ho, hne⟩ := h4 j o hj
        refine ⟨ho, ?_⟩
        rw [setCaller_table, setTable_table]
        by_cases hk3 : keyOf j = keyOf i
        · rw [if_pos hk3]
          exact fun hcontra => KeyState.noConfusion hcontra
        · rw [if_neg hk3]
          exact hne
  | readDone i o hc ht =>
    refine ⟨fun k => ?_, fun k o2 hk => ?_, fun j hj => ?_, fun j o2 hj => ?_⟩
    · rw [setCaller_table]
      rcases h1 k with ⟨hns, hc0⟩ | ⟨hne, hcc⟩
      · refine Or.inl ⟨hns, ?_⟩
        show c k + stepClaims keyOf (SFLabel.readDone i) k = 0
        rw [stepClaims_readDone, hc0]
      · refine Or.inr ⟨hne, ?_⟩
        show c k + stepClaims keyOf (SFLabel.readDone i) k = 1
        rw [stepClaims_readDone, hcc]
    · rw [setCaller_table] at hk
      exact h2 k o2 hk
    · by_cases hj2 : j = i
      · subst hj2
        rw [setCaller_callers, if_pos rfl] at hj
        exact CallerPC.noConfusion hj
      · rw [setCaller_callers, if_neg hj2] at hj
        rw [setCaller_table]
        exact h3 j hj
    · by_cases hj2 : j = i
      · rw [setCaller_callers, if_pos hj2] at hj
        injection hj with hinj
        rw [hj2]
        refine ⟨hinj ▸ h2 (keyOf i) o ht, ?_⟩
        rw [setCaller_table, ht]
        exact fun hcontra => KeyState.noConfusion hcontra
      · rw [setCaller_callers, if_neg hj2] at hj
        obtain ⟨ho, hne⟩ := h4 j o2 hj
        refine ⟨ho, ?_⟩
        rw [setCaller_table]
        exact hne

/-- A whole execution preserves the invariant, with the claim count advanced
by the trace's claims. -/
theorem sfexec_inv {α : Type} {f : SFKey → α} {keyOf : Nat → SFKey}
    {s t : SFState α} {ls : List SFLabel}
    (hex : SFExec f keyOf s ls t) :
    ∀ c : SFKey → Nat, SFInv f keyOf c s →
      SFInv f keyOf (fun k => c k + claimCount keyOf ls k) t := by
  induction hex with
  | nil s =>
    intro c hinv
    have heq : (fun k => c k + claimCount keyOf [] k) = c := by
      funext k
      simp [claimCount]
    rw [heq]
    exact hinv
  | cons s s2 t l ls hstep hrest ih =>
    intro c hinv
    have h5 := ih (fun k => c k + stepClaims keyOf l k) (sfstep_inv hstep hinv)
    have heq : (fun k => c k + claimCount keyOf (l :: ls) k) =
        (fun k => (c k + stepClaims keyOf l k) + claimCount keyOf ls k) := by
      funext k
      simp [claimCount]
      omega
    rw [heq]
    exact h5

/-- The invariant holds at the initial state with zero claims. -/
theorem sfinv_init {α : Type} (f : SFKey → α) (keyOf : Nat → SFKey) :
    SFInv f keyOf (fun _ => 0) (SFInit α) :=
  ⟨fun _ => Or.inl ⟨rfl, rfl⟩,
   fun _ _ h => KeyState.noConfusion h,
   fun _ h => CallerPC.noConfusion h,
   fun _ _ h => CallerPC.noConfusion h⟩

/-- C2: in every interleaved execution of the single-flight memo executor
from the initial state, each ProbeKey is claimed — and hence its decoder
invoked — at most once; every caller that has returned holds the one
computed outcome `f` of its own key, so all callers on a key observe the
identical result, and its key was claimed exactly once; and a caller's
enabled step depends only on that caller's own state and its own key's
cache cell, so callers on distinct keys never block one another. -/
theorem singleflight_exactly_once {α : Type} (f : SFKey → α) (keyOf : Nat → SFKey)
    (ls : List SFLabel) (t : SFState α)
    (hex : SFExec f keyOf (SFInit α) ls t) :
    (∀ k, claimCount keyOf ls k ≤ 1) ∧
    (∀ i o, t.callers i = .returned o →
      o = f (keyOf i) ∧ claimCount keyOf ls (keyOf i) = 1) ∧
    (∀ (s s2 s3 : SFState α) (l : SFLabel), SFStep f keyOf s l s2 →
      s3.callers l.actor = s.callers l.actor →
      s3.table (keyOf l.actor) = s.table (keyOf l.actor) →
      ∃ s4, SFStep f keyOf s3 l s4) := by
  obtain ⟨g1, g2, g3, g4⟩ := sfexec_inv hex (fun _ => 0) (sfinv_init f keyOf)
  refine ⟨?_, ?_, ?_⟩
  · intro k
    rcases g1 k with ⟨_, hc⟩ | ⟨_, hc⟩ <;>
      simp only [Nat.zero_add] at hc <;> omega
  · intro i o hret
    obtain ⟨ho, hne⟩ := g4 i o hret
    refine ⟨ho, ?_⟩
    rcases g1 (keyOf i) with ⟨hns, _⟩ | ⟨_, hc⟩
    · exact absurd hns hne
    · simp only [Nat.zero_add] at hc
      omega
  · intro s s2 s3 l hstep hcal htab
    cases hstep with
    | claim i hc ht =>
      exact ⟨_, SFStep.claim s3 i (hcal.trans hc) (htab.trans ht)⟩
    | publish i hc =>
      exact ⟨_, SFStep.publish s3 i (hcal.trans hc)⟩
    | readDone i o hc ht =>
      exact ⟨_, SFStep.readDone s3 i o (hcal.trans hc) (htab.trans ht)⟩

/-- Witness for C2: two callers on the key `sfK`; caller 0 claims and
publishes, caller 1 reads; the theorem's conclusions hold for this
execution. -/
theorem singleflight_exactly_once_witness :
    SFExec sfOutcome sfKeyOf (SFInit Nat) sfTrace sfS3 ∧
    ((∀ k, claimCount sfKeyOf sfTrace k ≤ 1) ∧
     (∀ i o, sfS3.callers i = .returned o →
       o = sfOutcome (sfKeyOf i) ∧ claimCount sfKeyOf sfTrace (sfKeyOf i) = 1) ∧
     (∀ (s s2 s3 : SFState Nat) (l : SFLabel), SFStep sfOutcome sfKeyOf s l s2 →
       s3.callers l.actor = s.callers l.actor →
       s3.table (sfKeyOf l.actor) = s.table (sfKeyOf l.actor) →
       ∃ s4, SFStep sfOutcome sfKeyOf s3 l s4)) := by
  have h1 : SFStep sfOutcome sfKeyOf (SFInit Nat) (.claim 0) sfS1 :=
    SFStep.claim (SFInit Nat) 0 rfl rfl
  have h2 : SFStep sfOutcome sfKeyOf sfS1 (.publish 0) sfS2 :=
    SFStep.publish sfS1 0 (by decide)
  have h3 : SFStep sfOutcome sfKeyOf sfS2 (.readDone 1) sfS3 :=
    SFStep.readDone sfS2 1 7 (by decide) (by decide)
  have hexec : SFExec sfOutcome sfKeyOf (SFInit Nat) sfTrace sfS3 :=
    SFExec.cons _ _ _ _ _ h1
      (SFExec.cons _ _ _ _ _ h2
        (SFExec.cons _ _ _ _ _ h3 (SFExec.nil _)))
  exact ⟨hexec, singleflight_exactly_once sfOutcome sfKeyOf sfTrace sfS3 hexec⟩

/-- The underlying presence probe performs at most one dial and at most one
decoder invocation. -/
theorem isRDP_trace_counts (env : RdpEnv) (executionId host : String) (port : Int) :
    countDials (isRDP env executionId host port).2 ≤ 1 ∧
    countDecodes (isRDP env executionId host port).2 ≤ 1 := by
  rcases hg : env.getDialersWithId executionId with _ | dialer
  · simp [isRDP, hg, countDials, countDecodes]
  · rcases hd : dialer.Fastdialer.Dial none "tcp" (host ++ ":" ++ toString port) with e | conn
    · simp [isRDP, hg, hd, countDials, countDecodes]
    · rcases hdet : env.detectRDP conn 5 with e | p
      · simp [isRDP, hg, hd, hdet, countDials, countDecodes]
      · obtain ⟨server, isrdp⟩ := p
        cases isrdp <;> simp [isRDP, hg, hd, hdet, countDials, countDecodes]

/-- C1: calling the memoized presence probe twice with identical arguments
performs at most one underlying network probe: the second call returns the
first call's outcome — success or failure alike — from the cache with no
network events at all, and the first call performs at most one dial and at
most one decoder invocation. -/
theorem memoized_probe_once (env : RdpEnv)
    (cache : Cache (IsRDPResponse × Option String))
    (executionId host : String) (port : Int) :
    (memoizedisRDP env (memoizedisRDP env cache executionId host port).2.1
        executionId host port).1
      = (memoizedisRDP env cache executionId host port).1 ∧
    (memoizedisRDP env (memoizedisRDP env cache executionId host port).2.1
        executionId host port).2.2 = [] ∧
    countDials (memoizedisRDP env cache executionId host port).2.2 ≤ 1 ∧
    countDecodes (memoizedisRDP env cache executionId host port).2.2 ≤ 1 := by
  have hcounts := isRDP_trace_counts env executionId host port
  rcases hcache : cache (executionId, host, port) with _ | o
  · refine ⟨?_, ?_, ?_, ?_⟩ <;>
      simp [memoizedisRDP, hcache, Function.update_same, hcounts.1, hcounts.2]
  · refine ⟨?_, ?_, ?_, ?_⟩ <;>
      simp [memoizedisRDP, hcache, countDials, countDecodes]

/-- C3: when the dialer registry holds no entry for the run id, both probes
return the `dialers not initialized` error alongside the zero-valued
response, with an empty event trace — in particular zero dial attempts. -/
theorem run_not_initialized (env : RdpEnv) (executionId host : String) (port : Int)
    (h : env.getDialersWithId executionId = none) :
    isRDP env executionId host port =
      ((⟨false, ""⟩, some ("dialers not initialized for " ++ executionId)), []) ∧
    checkRDPAuth env executionId host port =
      ((⟨none, false⟩, some ("dialers not initialized for " ++ executionId)), []) ∧
    countDials (isRDP env executionId host port).2 = 0 ∧
    countDials (checkRDPAuth env executionId host port).2 = 0 := by
  refine ⟨?_, ?_, ?_, ?_⟩ <;> simp [isRDP, checkRDPAuth, h, countDials]

/-- Witness for C3 on a concrete empty registry. -/
theorem run_not_initialized_witness :
    isRDP envNoDialers "run1" "acme.test" 3389 =
      ((⟨false, ""⟩, some ("dialers not initialized for " ++ "run1")), []) ∧
    checkRDPAuth envNoDialers "run1" "acme.test" 3389 =
      ((⟨none, false⟩, some ("dialers not initialized for " ++ "run1")), []) ∧
    countDials (isRDP envNoDialers "run1" "acme.test" 3389).2 = 0 ∧
    countDials (checkRDPAuth envNoDialers "run1" "acme.test" 3389).2 = 0 :=
  run_not_initialized envNoDialers "run1" "acme.test" 3389 rfl

/-- C4 counterexample: on a concrete successful probe, the one recorded dial
attempt carries no deadline — there is no dial with deadline 5 in the trace —
refuting that the dial step is performed with a deadline equal to the fixed
timeout of 5 time-units. -/
theorem dial_deadline_counterexample :
    (isRDP envNeg "run1" "acme.test" 3389).2 =
      [.dialAttempt "tcp" "acme.test:3389" none, .detectRDPCall 0 5, .closeConn 0] ∧
    Event.dialAttempt "tcp" "acme.test:3389" (some 5) ∉
      (isRDP envNeg "run1" "acme.test" 3389).2 ∧
    (none : Option Nat) ≠ some 5 := by
  refine ⟨rfl, ?_, ?_⟩ <;> decide

/-- With a resolved dialer, each probe's first recorded event is the dial
attempt on `host:port` carrying no deadline. -/
theorem probes_trace_head_dial (env : RdpEnv) (executionId host : String)
    (port : Int) (d : Dialers)
    (hg : env.getDialersWithId executionId = some d) :
    (isRDP env executionId host port).2.head? =
      some (.dialAttempt "tcp" (host ++ ":" ++ toString port) none) ∧
    (checkRDPAuth env executionId host port).2.head? =
      some (.dialAttempt "tcp" (host ++ ":" ++ toString port) none) := by
  constructor
  · rcases hd : d.Fastdialer.Dial none "tcp" (host ++ ":" ++ toString port) with e | conn
    · simp [isRDP, hg, hd]
    · rcases hdet : env.detectRDP conn 5 with e | p
      · simp [isRDP, hg, hd, hdet]
      · obtain ⟨server, isrdp⟩ := p
        cases isrdp <;> simp [isRDP, hg, hd, hdet]
  · rcases hd : d.Fastdialer.Dial none "tcp" (host ++ ":" ++ toString port) with e | conn
    · simp [checkRDPAuth, hg, hd]
    · rcases hdet : env.detectRDPAuth conn 5 with e | p
      · simp [checkRDPAuth, hg, hd, hdet]
      · obtain ⟨info, auth⟩ := p
        cases auth <;> simp [checkRDPAuth, hg, hd, hdet]

/-- C4 (amended): when the dialer resolves, each probe opens the TCP
connection through that dialer to address `host:port`, but the dial itself
is issued with a TODO context carrying no deadline; the fixed timeout of 5
time-units is defined and passed to the protocol decoder instead. -/
theorem dial_no_deadline_timeout_to_decoder (env : RdpEnv)
    (executionId host : String) (port : Int) (d : Dialers)
    (hg : env.getDialersWithId executionId = some d) :
    (isRDP env executionId host port).2.head? =
      some (.dialAttempt "tcp" (host ++ ":" ++ toString port) none) ∧
    (checkRDPAuth env executionId host port).2.head? =
      some (.dialAttempt "tcp" (host ++ ":" ++ toString port) none) ∧
    (∀ c tmo, Event.detectRDPCall c tmo ∈ (isRDP env executionId host port).2 →
      tmo = 5) ∧
    (∀ c tmo, Event.detectRDPAuthCall c tmo ∈ (checkRDPAuth env executionId host port).2 →
      tmo = 5) := by
  refine ⟨(probes_trace_head_dial env executionId host port d hg).1,
    (probes_trace_head_dial env executionId host port d hg).2, ?_, ?_⟩
  · intro c tmo hmem
    rcases hd : d.Fastdialer.Dial none "tcp" (host ++ ":" ++ toString port) with e | conn
    · simp [isRDP, hg, hd] at hmem
    · rcases hdet : env.detectRDP conn 5 with e | p
      · simp [isRDP, hg, hd, hdet] at hmem
        exact hmem.2
      · obtain ⟨server, isrdp⟩ := p
        cases isrdp <;> simp [isRDP, hg, hd, hdet] at hmem <;> exact hmem.2
  · intro c tmo hmem
    rcases hd : d.Fastdialer.Dial none "tcp" (host ++ ":" ++ toString port) with e | conn
    · simp [checkRDPAuth, hg, hd] at hmem
    · rcases hdet : env.detectRDPAuth conn 5 with e | p
      · simp [checkRDPAuth, hg, hd, hdet] at hmem
        exact hmem.2
      · obtain ⟨info, auth⟩ := p
        cases auth <;> simp [checkRDPAuth, hg, hd, hdet] at hmem <;> exact hmem.2

/-- Witness for the amended C4 on a concrete environment. -/
theorem dial_no_deadline_timeout_to_decoder_witness :
    (isRDP envNeg "run1" "acme.test" 3389).2.head? =
      some (.dialAttempt "tcp" ("acme.test" ++ ":" ++ toString (3389 : Int)) none) ∧
    (checkRDPAuth envNeg "run1" "acme.test" 3389).2.head? =
      some (.dialAttempt "tcp" ("acme.test" ++ ":" ++ toString (3389 : Int)) none) ∧
    (∀ c tmo, Event.detectRDPCall c tmo ∈ (isRDP envNeg "run1" "acme.test" 3389).2 →
      tmo = 5) ∧
    (∀ c tmo, Event.detectRDPAuthCall c tmo ∈ (checkRDPAuth envNeg "run1" "acme.test" 3389).2 →
      tmo = 5) :=
  dial_no_deadline_timeout_to_decoder envNeg "run1" "acme.test" 3389 okDialers rfl

/-- C5: in every outcome of either probe, the OS label is non-empty only if
the `IsRDP` flag is true, and the service-info record is present only if
the `Auth` flag is true. -/
theorem response_shaping_invariant (env : RdpEnv) (executionId host : String)
    (port : Int) :
    ((isRDP env executionId host port).1.1.OS ≠ "" →
      (isRDP env executionId host port).1.1.IsRDP = true) ∧
    ((checkRDPAuth env executionId host port).1.1.PluginInfo ≠ none →
      (checkRDPAuth env executionId host port).1.1.Auth = true) := by
  constructor
  · intro hos
    rcases hg : env.getDialersWithId executionId with _ | dialer
    · simp [isRDP, hg] at hos
    · rcases hd : dialer.Fastdialer.Dial none "tcp" (host ++ ":" ++ toString port) with e | conn
      · simp [isRDP, hg, hd] at hos
      · rcases hdet : env.detectRDP conn 5 with e | p
        · simp [isRDP, hg, hd, hdet] at hos
        · obtain ⟨server, isrdp⟩ := p
          cases isrdp
          · simp [isRDP, hg, hd, hdet] at hos
          · simp [isRDP, hg, hd, hdet]
  · intro hpi
    rcases hg : env.getDialersWithId executionId with _ | dialer
    · simp [checkRDPAuth, hg] at hpi
    · rcases hd : dialer.Fastdialer.Dial none "tcp" (host ++ ":" ++ toString port) with e | conn
      · simp [checkRDPAuth, hg, hd] at hpi
      · rcases hdet : env.detectRDPAuth conn 5 with e | p
        · simp [checkRDPAuth, hg, hd, hdet] at hpi
        · obtain ⟨info, auth⟩ := p
          cases auth
          · simp [checkRDPAuth, hg, hd, hdet] at hpi
          · simp [checkRDPAuth, hg, hd, hdet]

/-- Witness for C5 on a concrete positive detection. -/
theorem response_shaping_invariant_witness :
    (isRDP envPos "run1" "acme.test" 3389).1.1.IsRDP = true ∧
    (checkRDPAuth envPos "run1" "acme.test" 3389).1.1.Auth = true :=
  ⟨(response_shaping_invariant envPos "run1" "acme.test" 3389).1 (by decide),
   (response_shaping_invariant envPos "run1" "acme.test" 3389).2 (by decide)⟩

/-- C6: a decoder that completes without error and reports a negative gives
a defined negative, never an error: the presence probe returns exactly
`{IsRDP:false, OS:""}` with nil error, and the auth probe returns
`{PluginInfo:nil, Auth:false}` with nil error, discarding whatever metadata
the decoder supplied. -/
theorem negative_decode_not_error (env : RdpEnv) (executionId host : String)
    (port : Int) (d : Dialers) (conn : Nat) (server : String)
    (info : Option ServiceRDP)
    (hg : env.getDialersWithId executionId = some d)
    (hd : d.Fastdialer.Dial none "tcp" (host ++ ":" ++ toString port) = .ok conn)
    (hdet : env.detectRDP conn 5 = .ok (server, false))
    (hdeta : env.detectRDPAuth conn 5 = .ok (info, false)) :
    (isRDP env executionId host port).1 = (⟨false, ""⟩, none) ∧
    (checkRDPAuth env executionId host port).1 = (⟨none, false⟩, none) := by
  constructor <;> simp [isRDP, checkRDPAuth, hg, hd, hdet, hdeta]

/-- Witness for C6: the decoders report negatives with non-trivial metadata
and the probes discard it. -/
theorem negative_decode_not_error_witness :
    (isRDP envNeg "run1" "acme.test" 3389).1 = (⟨false, ""⟩, none) ∧
    (checkRDPAuth envNeg "run1" "acme.test" 3389).1 = (⟨none, false⟩, none) :=
  negative_decode_not_error envNeg "run1" "acme.test" 3389 okDialers 0
    "Windows Server 2019" (some ⟨"MSTSHASH=abc"⟩) rfl rfl rfl rfl

/-- C7: dial errors and decoder errors are returned to the caller unchanged
alongside the zero-valued response, and the failing step is not retried:
a dial error yields exactly one dial attempt and no decoder call, and a
decoder error yields exactly one dial and one decoder call. -/
theorem errors_propagate_unchanged (env : RdpEnv) (executionId host : String)
    (port : Int) (d : Dialers)
    (hg : env.getDialersWithId executionId = some d) :
    (∀ e, d.Fastdialer.Dial none "tcp" (host ++ ":" ++ toString port) = .error e →
      (isRDP env executionId host port).1 = (⟨false, ""⟩, some e) ∧
      countDials (isRDP env executionId host port).2 = 1 ∧
      countDecodes (isRDP env executionId host port).2 = 0 ∧
      (checkRDPAuth env executionId host port).1 = (⟨none, false⟩, some e) ∧
      countDials (checkRDPAuth env executionId host port).2 = 1 ∧
      countDecodes (checkRDPAuth env executionId host port).2 = 0) ∧
    (∀ conn e, d.Fastdialer.Dial none "tcp" (host ++ ":" ++ toString port) = .ok conn →
      env.detectRDP conn 5 = .error e →
      (isRDP env executionId host port).1 = (⟨false, ""⟩, some e) ∧
      countDials (isRDP env executionId host port).2 = 1 ∧
      countDecodes (isRDP env executionId host port).2 = 1) ∧
    (∀ conn e, d.Fastdialer.Dial none "tcp" (host ++ ":" ++ toString port) = .ok conn →
      env.detectRDPAuth conn 5 = .error e →
      (checkRDPAuth env executionId host port).1 = (⟨none, false⟩, some e) ∧
      countDials (checkRDPAuth env executionId host port).2 = 1 ∧
      countDecodes (checkRDPAuth env executionId host port).2 = 1) := by
  refine ⟨?_, ?_, ?_⟩
  · intro e hd
    refine ⟨?_, ?_, ?_, ?_, ?_, ?_⟩ <;>
      simp [isRDP, checkRDPAuth, hg, hd, countDials, countDecodes]
  · intro conn e hd hdet
    refine ⟨?_, ?_, ?_⟩ <;>
      simp [isRDP, hg, hd, hdet, countDials, countDecodes]
  · intro conn e hd hdeta
    refine ⟨?_, ?_, ?_⟩ <;>
      simp [checkRDPAuth, hg, hd, hdeta, countDials, countDecodes]

/-- Witness for C7 on concrete failing environments: the exact error values
come back unchanged with the zero-valued response. -/
theorem errors_propagate_unchanged_witness :
    (isRDP envDialFail "run1" "acme.test" 3389).1 =
      (⟨false, ""⟩, some "connection refused") ∧
    (isRDP envDecodeFail "run1" "acme.test" 3389).1 =
      (⟨false, ""⟩, some "rdp decode failed") ∧
    (checkRDPAuth envDecodeFail "run1" "acme.test" 3389).1 =
      (⟨none, false⟩, some "rdp auth decode failed") :=
  ⟨((errors_propagate_unchanged envDialFail "run1" "acme.test" 3389
      ⟨⟨fun _ _ _ => .error "connection refused"⟩⟩ rfl).1 "connection refused" rfl).1,
   ((errors_propagate_unchanged envDecodeFail "run1" "acme.test" 3389
      okDialers rfl).2.1 0 "rdp decode failed" rfl rfl).1,
   ((errors_propagate_unchanged envDecodeFail "run1" "acme.test" 3389
      okDialers rfl).2.2 0 "rdp auth decode failed" rfl rfl).1⟩

/-- C8: whenever the dial succeeds, the acquired connection is closed
exactly once on every modelled exit path (decoder error, negative decode,
positive decode), the close is the last action before the probe returns,
and each probe performs exactly one dial of its own (no connection reuse
across probes). -/
theorem conn_closed_exactly_once (env : RdpEnv) (executionId host : String)
    (port : Int) (d : Dialers) (conn : Nat)
    (hg : env.getDialersWithId executionId = some d)
    (hd : d.Fastdialer.Dial none "tcp" (host ++ ":" ++ toString port) = .ok conn) :
    countCloses (isRDP env executionId host port).2 conn = 1 ∧
    (isRDP env executionId host port).2.getLast? = some (.closeConn conn) ∧
    countDials (isRDP env executionId host port).2 = 1 ∧
    countCloses (checkRDPAuth env executionId host port).2 conn = 1 ∧
    (checkRDPAuth env executionId host port).2.getLast? = some (.closeConn conn) ∧
    countDials (checkRDPAuth env executionId host port).2 = 1 := by
  refine ⟨?_, ?_, ?_, ?_, ?_, ?_⟩
  · rcases hdet : env.detectRDP conn 5 with e | p
    · simp [isRDP, hg, hd, hdet, countCloses]
    · obtain ⟨server, isrdp⟩ := p
      cases isrdp <;> simp [isRDP, hg, hd, hdet, countCloses]
  · rcases hdet : env.detectRDP conn 5 with e | p
    · simp [isRDP, hg, hd, hdet]
    · obtain ⟨server, isrdp⟩ := p
      cases isrdp <;> simp [isRDP, hg, hd, hdet]
  · rcases hdet : env.detectRDP conn 5 with e | p
    · simp [isRDP, hg, hd, hdet, countDials]
    · obtain ⟨server, isrdp⟩ := p
      cases isrdp <;> simp [isRDP, hg, hd, hdet, countDials]
  · rcases hdet : env.detectRDPAuth conn 5 with e | p
    · simp [checkRDPAuth, hg, hd, hdet, countCloses]
    · obtain ⟨info, auth⟩ := p
      cases auth <;> simp [checkRDPAuth, hg, hd, hdet, countCloses]
  · rcases hdet : env.detectRDPAuth conn 5 with e | p
    · simp [checkRDPAuth, hg, hd, hdet]
    · obtain ⟨info, auth⟩ := p
      cases auth <;> simp [checkRDPAuth, hg, hd, hdet]
  · rcases hdet : env.detectRDPAuth conn 5 with e | p
    · simp [checkRDPAuth, hg, hd, hdet, countDials]
    · obtain ⟨info, auth⟩ := p
      cases auth <;> simp [checkRDPAuth, hg, hd, hdet, countDials]

/-- Witness for C8 on a concrete successful dial. -/
theorem conn_closed_exactly_once_witness :
    countCloses (isRDP envNeg "run1" "acme.test" 3389).2 0 = 1 ∧
    (isRDP envNeg "run1" "acme.test" 3389).2.getLast? = some (.closeConn 0) ∧
    countDials (isRDP envNeg "run1" "acme.test" 3389).2 = 1 ∧
    countCloses (checkRDPAuth envNeg "run1" "acme.test" 3389).2 0 = 1 ∧
    (checkRDPAuth envNeg "run1" "acme.test" 3389).2.getLast? = some (.closeConn 0) ∧
    countDials (checkRDPAuth envNeg "run1" "acme.test" 3389).2 = 1 :=
  conn_closed_exactly_once envNeg "run1" "acme.test" 3389 okDialers 0 rfl rfl

/-- C9: the probes perform no pre-validation of the port: for every integer
port — in range or not — the address `host:port` is formatted as-is and
handed to the dial step as the probe's first action. -/
theorem no_port_prevalidation (env : RdpEnv) (executionId host : String)
    (port : Int) (d : Dialers)
    (hg : env.getDialersWithId executionId = some d) :
    (isRDP env executionId host port).2.head? =
      some (.dialAttempt "tcp" (host ++ ":" ++ toString port) none) ∧
    (checkRDPAuth env executionId host port).2.head? =
      some (.dialAttempt "tcp" (host ++ ":" ++ toString port) none) := by
  exact probes_trace_head_dial env executionId host port d hg

/-- Witness for C9 at the out-of-range port 99999: the dial is still
attempted, with the address formatted as-is. -/
theorem no_port_prevalidation_witness :
    (isRDP envNeg "run1" "acme.test" 99999).2.head? =
      some (.dialAttempt "tcp" ("acme.test" ++ ":" ++ toString (99999 : Int)) none) ∧
    (checkRDPAuth envNeg "run1" "acme.test" 99999).2.head? =
      some (.dialAttempt "tcp" ("acme.test" ++ ":" ++ toString (99999 : Int)) none) :=
  no_port_prevalidation envNeg "run1" "acme.test" 99999 okDialers rfl

/-- C10: the exported entry points read `executionId` from the context via
an unchecked type assertion: a context without a string value under that
key makes the operation panic — no `missing identity` error value is
returned — and a present string value is passed unmodified as the run
identity to the memoized probe. -/
theorem context_execution_id_handling (env : RdpEnv)
    (cacheP : Cache (IsRDPResponse × Option String))
    (cacheA : Cache (CheckRDPAuthResponse × Option String))
    (ctx : Context) (host : String) (port : Int) :
    (typeAssertString (ctx.value "executionId") = none →
      IsRDP env cacheP ctx host port = none ∧
      CheckRDPAuth env cacheA ctx host port = none) ∧
    (∀ executionId, typeAssertString (ctx.value "executionId") = some executionId →
      IsRDP env cacheP ctx host port =
        some (memoizedisRDP env cacheP executionId host port) ∧
      CheckRDPAuth env cacheA ctx host port =
        some (memoizedcheckRDPAuth env cacheA executionId host port)) := by
  constructor
  · intro h
    constructor <;> simp [IsRDP, CheckRDPAuth, h]
  · intro executionId h
    constructor <;> simp [IsRDP, CheckRDPAuth, h]

/-- Witness for C10: a context with no value panics, a context with a
non-string value panics, and a context with the string `run1` reaches the
memoized probe with that very identity. -/
theorem context_execution_id_handling_witness :
    IsRDP envNeg emptyCacheP ctxEmpty "acme.test" 3389 = none ∧
    CheckRDPAuth envNeg emptyCacheA ctxNonString "acme.test" 3389 = none ∧
    IsRDP envNeg emptyCacheP ctxRun1 "acme.test" 3389 =
      some (memoizedisRDP envNeg emptyCacheP "run1" "acme.test" 3389) ∧
    CheckRDPAuth envNeg emptyCacheA ctxRun1 "acme.test" 3389 =
      some (memoizedcheckRDPAuth envNeg emptyCacheA "run1" "acme.test" 3389) :=
  ⟨((context_execution_id_handling envNeg emptyCacheP emptyCacheA ctxEmpty
      "acme.test" 3389).1 rfl).1,
   ((context_execution_id_handling envNeg emptyCacheP emptyCacheA ctxNonString
      "acme.test" 3389).1 rfl).2,
   ((context_execution_id_handling envNeg emptyCacheP emptyCacheA ctxRun1
      "acme.test" 3389).2 "run1" rfl).1,
   ((context_execution_id_handling envNeg emptyCacheP emptyCacheA ctxRun1
      "acme.test" 3389).2 "run1" rfl).2⟩

end Rdp
